import Mathlib

/-!
Verification of the community-preset preview pipeline of
`src/components/panel/CommunityPage.tsx`.

The component keeps a catalog of `CommunityPreset` values (fetched once), a
preview map `previews : Record (string, string or null)` keyed by preset name
(a blob URL when the render succeeded, `null` when it failed, absent while
pending), a work queue `previewQueue`, a re-entrancy flag
`isProcessingQueue`, and a reference-image path `previewImagePath`.

`processPreviewQueue` (lines 88-141) drains the queue one preset at a time:
skip if the map already holds a truthy entry for the name (line 97); fetch
and parse the preset file (lines 100-102; a throw is caught at line 134 and
installs `null`); copy an optional `creator` field back into the catalog via
`setPresets` (lines 104-111); silently `continue` when the file has no
adjustments section (lines 113-117); merge the adjustments over
`INITIAL_ADJUSTMENTS` (line 119); call the renderer (lines 121-124); wrap the
bytes into a blob URL and install it, revoking a previous blob URL for the
same key first (lines 126-133); on any throw install `null` (lines 134-137).

The embedding below models the backend bridge (`invoke`) by an `Env` of
oracle functions, blob URLs by tokens that record which reference image the
render used, and the preview map by an association list.
-/

/-- Adjustment sets are opaque key/value records in the source (`jsAdjustments`
is a plain JSON object); modelled as an association list. -/
abbrev Adjustments : Type := List (String × Int)

/-- A community preset as fetched from the catalog (lines 23-27 of the
source): a name, a download URL, and an optional creator. The source type
carries no adjustments; they are fetched lazily per preset. -/
structure CommunityPreset where
  name : String
  download_url : String
  creator : Option String
deriving DecidableEq, Repr

/-- The result of `JSON.parse` on a fetched preset file, abstracted to the two
fields the component reads: `presetFile?.creator` (line 104) and
`presetFile?.presets?.[0]?.preset?.adjustments` (line 113), each of which may
be absent. -/
structure PresetFile where
  creator : Option String
  adjustments : Option Adjustments
deriving DecidableEq, Repr

/-- A blob URL produced by `URL.createObjectURL` (line 127), modelled as a
token recording a fresh id and the reference-image path the render at line
121 was invoked with. -/
structure BlobUrl where
  id : Nat
  imagePath : String
deriving DecidableEq, Repr

/-- The preview map: preset name to `some url` (ready), `none` (failed render,
the source stores `null`), absent (pending). -/
abbrev PrevMap : Type := List (String × Option BlobUrl)

/-- Lookup in a string-keyed association list (JS object property read). -/
def lookupA {α : Type} (m : List (String × α)) (k : String) : Option α :=
  match m with
  | [] => none
  | (k', v) :: rest => if k' = k then some v else lookupA rest k

/-- Update-or-append in a string-keyed association list; this is the JS
object spread `{...prev, [key]: value}` of lines 132 and 136, which keeps an
existing key in place and appends a new one. -/
def insertA {α : Type} (m : List (String × α)) (k : String) (v : α) :
    List (String × α) :=
  match m with
  | [] => [(k, v)]
  | (k', v') :: rest =>
    if k' = k then (k, v) :: rest else (k', v') :: insertA rest k v

/-- Key list of the map, `Object.keys(previews)` of line 81. -/
def keysOf {α : Type} (m : List (String × α)) : List String :=
  m.map Prod.fst

/-- Truthiness of `previewsRef.current[preset.name]` at line 97: a stored
blob URL is truthy, a stored `null` and an absent key are falsy. -/
def truthyEntry (m : PrevMap) (k : String) : Bool :=
  match lookupA m k with
  | some (some _) => true
  | _ => false

/-- The entry for a key is present and ready (a blob URL); this is also the
Presentation Layer's tile condition of lines 262-267 (`if (!previewUrl)
return null`). -/
def entryReady (m : PrevMap) (k : String) : Bool :=
  match lookupA m k with
  | some (some _) => true
  | _ => false

/-- The entry for a key is present and failed (the source stores `null` after
the catch at lines 134-137). -/
def entryFailed (m : PrevMap) (k : String) : Bool :=
  match lookupA m k with
  | some none => true
  | _ => false

/-- The JS object spread `{...INITIAL_ADJUSTMENTS, ...presetAdjustments}` of
line 119: baseline keys in order with preset values overriding, then
preset-only keys appended. -/
def mergeAdjustments (base preset : Adjustments) : Adjustments :=
  (List.map (fun kv =>
      match List.lookup kv.1 preset with
      | some v => (kv.1, v)
      | none => kv) base)
    ++ List.filter (fun kv => !(List.any base (fun kv2 => kv2.1 == kv.1))) preset

/-- The backend bridge of the component, one oracle per `invoke` call:
`fetchPresetContent` combines `invoke(Invokes.FetchPresetContent)` (line 100)
with `JSON.parse` (line 102), `none` modelling a throw from either;
`renderOk` tells whether `invoke(Invokes.GenerateCommunityPresetPreview)`
(lines 121-124) succeeds for a given image path and merged adjustments;
`saveOk` tells whether `invoke(Invokes.SaveCommunityPreset)` (lines 178-181)
succeeds. `initialAdjustments` is the baseline `INITIAL_ADJUSTMENTS` imported
from `utils/adjustments` (modelled from the spec: a fixed baseline adjustment
set, not part of the excerpt). -/
structure Env where
  initialAdjustments : Adjustments
  fetchPresetContent : String → Option PresetFile
  renderOk : String → Adjustments → Bool
  saveOk : String → Adjustments → Bool

/-- Render-call trace events: `issue n` when the renderer is invoked for
preset `n` (line 121), `settle n` when that call resolves or rejects. -/
inductive RenderEvent
  | issue (presetName : String)
  | settle (presetName : String)
deriving DecidableEq, Repr

/-- State touched by the drain loop of `processPreviewQueue`: the catalog
(`setPresets` at lines 106-110 mutates it), the preview map, the fresh-id
counter for blob URLs, and ledgers of every URL ever created
(`URL.createObjectURL`, line 127) and ever revoked (`URL.revokeObjectURL`,
line 131). -/
structure DrainState where
  presets : List CommunityPreset
  previews : PrevMap
  nextId : Nat
  created : List BlobUrl
  revoked : List BlobUrl
deriving DecidableEq, Repr

/-- Lines 106-110: `prevPresets.map(p => p.name === preset.name ? { ...p,
creator } : p)`. -/
def updateCreator (ps : List CommunityPreset) (nm c : String) :
    List CommunityPreset :=
  ps.map (fun p => if p.name = nm then { p with creator := some c } else p)

/-- Lines 104-111: copy the fetched file's creator into the catalog entry of
the same name, when present. -/
def applyCreatorUpdate (file : PresetFile) (nm : String) (s : DrainState) :
    DrainState :=
  match file.creator with
  | some c => { s with presets := updateCreator s.presets nm c }
  | none => s

/-- Lines 126-133: wrap the render result into a fresh blob URL, revoke the
previous blob URL stored under the same key if any, and install the new one. -/
def installPreview (imgPath nm : String) (s : DrainState) :
    DrainState × List RenderEvent :=
  let url : BlobUrl := ⟨s.nextId, imgPath⟩
  let s2 := match lookupA s.previews nm with
    | some (some old) => { s with revoked := old :: s.revoked }
    | _ => s
  ({ s2 with
      previews := insertA s2.previews nm (some url)
      nextId := s2.nextId + 1
      created := url :: s2.created },
    [RenderEvent.issue nm, RenderEvent.settle nm])

/-- One iteration of the `while` body, lines 96-137: skip a truthy entry;
install `null` when fetch or parse throws (catch at 134-137); update the
creator; silently continue when the file has no adjustments (113-117);
otherwise merge and render, installing a blob URL on success or `null` on
failure. The second component is the render-call trace of the iteration. -/
def drainStep (env : Env) (imgPath : String) (p : CommunityPreset)
    (s : DrainState) : DrainState × List RenderEvent :=
  if truthyEntry s.previews p.name then (s, [])
  else
    match env.fetchPresetContent p.download_url with
    | none => ({ s with previews := insertA s.previews p.name none }, [])
    | some file =>
      let s1 := applyCreatorUpdate file p.name s
      match file.adjustments with
      | none => (s1, [])
      | some adj =>
        if env.renderOk imgPath (mergeAdjustments env.initialAdjustments adj) then
          installPreview imgPath p.name s1
        else
          ({ s1 with previews := insertA s1.previews p.name none },
            [RenderEvent.issue p.name, RenderEvent.settle p.name])

/-- The drain loop of `processPreviewQueue` (lines 95-138) run to completion
over a queue snapshot, sequentially: each iteration is fully awaited before
the next begins. Returns the final state and the concatenated render trace. -/
def processPreviewQueue (env : Env) (imgPath : String) :
    List CommunityPreset → DrainState → DrainState × List RenderEvent
  | [], s => (s, [])
  | p :: rest, s =>
    let r1 := drainStep env imgPath p s
    let r2 := processPreviewQueue env imgPath rest r1.1
    (r2.1, r1.2 ++ r2.2)

/-- Lines 80-86: `presets.length > 0 && Object.keys(previews).length ===
presets.length`. -/
def allPreviewsLoaded (presets : List CommunityPreset) (previews : PrevMap) :
    Bool :=
  decide (0 < presets.length) && decide ((keysOf previews).length = presets.length)

/-- Number of preview-map entries that exist; every stored entry is resolved
(ready `some url` or failed `none`), pending presets are absent. -/
def resolvedEntryCount (previews : PrevMap) : Nat :=
  previews.length

/-- Modelled from the spec: the completion signal as the spec words it, true
exactly when the number of resolved entries equals the catalog size and the
catalog is non-empty. Stated independently of the source to be compared with
`allPreviewsLoaded`. -/
def completionSignalSpec (presets : List CommunityPreset) (previews : PrevMap) :
    Prop :=
  presets ≠ [] ∧ resolvedEntryCount previews = presets.length

/-- Per-preset download status of lines 36 and 167-187. -/
inductive DownloadStatus
  | idle
  | downloading
  | success
deriving DecidableEq, Repr

/-- Lines 167-187, `handleDownloadPreset`, run to completion: mark
`downloading`, fetch and parse the preset file, throw when it has no
adjustments (lines 173-176), persist via `SaveCommunityPreset`; the catch at
lines 183-186 resets the status to `idle`. The handler never calls
`setPresets`, so the catalog is threaded through unchanged. -/
def handleDownloadPreset (env : Env) (preset : CommunityPreset)
    (status : List (String × DownloadStatus)) (presets : List CommunityPreset) :
    List (String × DownloadStatus) × List CommunityPreset :=
  let status1 := insertA status preset.name DownloadStatus.downloading
  match env.fetchPresetContent preset.download_url with
  | none => (insertA status1 preset.name DownloadStatus.idle, presets)
  | some file =>
    match file.adjustments with
    | none => (insertA status1 preset.name DownloadStatus.idle, presets)
    | some adj =>
      if env.saveOk preset.name adj then
        (insertA status1 preset.name DownloadStatus.success, presets)
      else
        (insertA status1 preset.name DownloadStatus.idle, presets)

/-- Whether the download action succeeds for a preset under the given
oracles: fetch and parse succeed, the file has an adjustments section, and
the save call succeeds. -/
def downloadSucceeds (env : Env) (p : CommunityPreset) : Bool :=
  match env.fetchPresetContent p.download_url with
  | none => false
  | some file =>
    match file.adjustments with
    | none => false
    | some adj => env.saveOk p.name adj

/-- Outcome of one preset under the drain loop when its entry is not yet
present: `skipped` when the fetched file parses but has no adjustments
section (the `continue` at line 116), `failed` when fetch/parse throws or the
render fails, `ready` when the render succeeds. -/
inductive PreviewOutcome
  | skipped
  | failed
  | ready
deriving DecidableEq, Repr

/-- The outcome of a preset as a function of the oracles alone. -/
def previewOutcome (env : Env) (imgPath : String) (p : CommunityPreset) :
    PreviewOutcome :=
  match env.fetchPresetContent p.download_url with
  | none => PreviewOutcome.failed
  | some file =>
    match file.adjustments with
    | none => PreviewOutcome.skipped
    | some adj =>
      if env.renderOk imgPath (mergeAdjustments env.initialAdjustments adj) then
        PreviewOutcome.ready
      else
        PreviewOutcome.failed

/-- Whether the drain loop reaches the render call (line 121) for a preset:
fetch and parse succeed and the file has an adjustments section. -/
def renderIssued (env : Env) (p : CommunityPreset) : Bool :=
  match env.fetchPresetContent p.download_url with
  | none => false
  | some file => file.adjustments.isSome

/-- The preview-map suffix a drain over queue `Q` appends when started with
no entry present for any queued name: one entry per non-skipped preset in
queue order, with fresh blob-url ids assigned to successes in order. -/
def buildTail (env : Env) (imgPath : String) :
    List CommunityPreset → Nat → PrevMap
  | [], _ => []
  | p :: rest, id =>
    match previewOutcome env imgPath p with
    | PreviewOutcome.skipped => buildTail env imgPath rest id
    | PreviewOutcome.failed => (p.name, none) :: buildTail env imgPath rest id
    | PreviewOutcome.ready =>
      (p.name, some ⟨id, imgPath⟩) :: buildTail env imgPath rest (id + 1)

/-- The render trace such a drain emits: one issue/settle pair per preset
that reaches the render call, in queue order. -/
def buildTrace (env : Env) : List CommunityPreset → List RenderEvent
  | [] => []
  | p :: rest =>
    (if renderIssued env p then
      [RenderEvent.issue p.name, RenderEvent.settle p.name]
    else []) ++ buildTrace env rest

/-- Number of presets in the queue whose render succeeds. -/
def readyCount (env : Env) (imgPath : String) (Q : List CommunityPreset) : Nat :=
  (Q.filter (fun p => decide (previewOutcome env imgPath p = PreviewOutcome.ready))).length

/-- A trace is serialized when it is a sequence of adjacent issue/settle
pairs: every render call is awaited before the next one is issued. -/
def isSerialTrace : List RenderEvent → Bool
  | [] => true
  | RenderEvent.issue n :: RenderEvent.settle m :: rest =>
    decide (n = m) && isSerialTrace rest
  | _ => false

/-- A trace is a fan-out when every issue event precedes every settle event:
equivalently, no issue event occurs after the first settle event. -/
def isFanOutTrace : List RenderEvent → Bool
  | [] => true
  | RenderEvent.issue _ :: rest => isFanOutTrace rest
  | RenderEvent.settle _ :: rest =>
    rest.all (fun e =>
      match e with
      | RenderEvent.issue _ => false
      | RenderEvent.settle _ => true)

/-!
Fine-grained interleaving model. JavaScript is single-threaded with
cooperative scheduling: execution is a sequence of atomic segments separated
by `await` suspension points. The machine below cuts `processPreviewQueue`
and the two handlers at exactly those points; a scenario is an explicit
schedule of segments. Continuations carry the values JS closures capture: in
particular the drain loop captures `previewImagePath` when the
`processPreviewQueue` callback is created (its `useCallback` dependency,
line 141), so an in-flight loop keeps rendering against the path it started
with even after the state changes.
-/

/-- Whole-component state visible across segments: the catalog, the preview
map, the current reference-image path, the shared mutable queue ref, the
re-entrancy flag, and the blob-URL ledgers. -/
structure PageState where
  presets : List CommunityPreset
  previews : PrevMap
  previewImagePath : Option String
  previewQueue : List CommunityPreset
  isProcessingQueue : Bool
  nextId : Nat
  created : List BlobUrl
  revoked : List BlobUrl
deriving DecidableEq, Repr

/-- Suspended continuations: the drain loop at its top (line 95), resumed
after the fetch await (line 100) with the fetch result, resumed after the
render await (line 121) with the render outcome, and
`handleSelectPreviewImage` resumed after the file-dialog await (line 152)
with the snapshot of `previews` its closure captured at click time and the
chosen path. -/
inductive PageCont
  | loopTop (imgPath : String)
  | afterFetch (imgPath : String) (p : CommunityPreset) (res : Option PresetFile)
  | afterRender (imgPath : String) (p : CommunityPreset) (ok : Bool)
  | selectResume (snapshot : PrevMap) (selected : String)
deriving DecidableEq, Repr

/-- One atomic segment. Returns the new state and the continuation the same
logical task suspends into, `none` when the task finishes. -/
def stepSeg (env : Env) (c : PageCont) (s : PageState) : PageState × Option PageCont :=
  match c with
  | PageCont.loopTop img =>
    match s.previewQueue with
    | [] => ({ s with isProcessingQueue := false }, none)
    | p :: rest =>
      let s1 := { s with previewQueue := rest }
      if truthyEntry s1.previews p.name then
        (s1, some (PageCont.loopTop img))
      else
        (s1, some (PageCont.afterFetch img p (env.fetchPresetContent p.download_url)))
  | PageCont.afterFetch img p res =>
    match res with
    | none =>
      ({ s with previews := insertA s.previews p.name none },
        some (PageCont.loopTop img))
    | some file =>
      let s1 := match file.creator with
        | some c => { s with presets := updateCreator s.presets p.name c }
        | none => s
      match file.adjustments with
      | none => (s1, some (PageCont.loopTop img))
      | some adj =>
        (s1, some (PageCont.afterRender img p
          (env.renderOk img (mergeAdjustments env.initialAdjustments adj))))
  | PageCont.afterRender img p ok =>
    if ok then
      let url : BlobUrl := ⟨s.nextId, img⟩
      let s1 := match lookupA s.previews p.name with
        | some (some old) => { s with revoked := old :: s.revoked }
        | _ => s
      ({ s1 with
          previews := insertA s1.previews p.name (some url)
          nextId := s1.nextId + 1
          created := url :: s1.created },
        some (PageCont.loopTop img))
    else
      ({ s with previews := insertA s.previews p.name none },
        some (PageCont.loopTop img))
  | PageCont.selectResume snapshot selected =>
    ({ s with
        revoked := (snapshot.filterMap (fun e => e.2)) ++ s.revoked
        previews := []
        previewImagePath := some selected },
      none)

/-- The effect of lines 143-148 together with the guard of
`processPreviewQueue` (lines 89-93): when the catalog is non-empty and a
reference image is set, overwrite the shared queue ref with the full catalog
and call `processPreviewQueue`; the call returns immediately when another
drain is already running (or the queue is empty), otherwise it sets the
re-entrancy flag and enters the loop. The `!previewImagePath` disjunct of the
guard is subsumed by the surrounding check. -/
def runEffect (s : PageState) : PageState × Option PageCont :=
  match s.previewImagePath with
  | some img =>
    if 0 < s.presets.length then
      let s1 := { s with previewQueue := s.presets }
      if s1.isProcessingQueue || decide (s1.previewQueue.length = 0) then
        (s1, none)
      else
        ({ s1 with isProcessingQueue := true }, some (PageCont.loopTop img))
    else (s, none)
  | none => (s, none)

/-- The unmount cleanup of lines 71-77: revoke every blob URL currently in
the preview map. -/
def unmountCleanup (s : PageState) : PageState :=
  { s with revoked := (s.previews.filterMap (fun e => e.2)) ++ s.revoked }

/-!
Scenario for the invalidation claim: one preset, reference image switched
while the preset's content fetch is in flight. Every step below is a legal
single-threaded schedule of the segments above.
-/

/-- The single catalog entry of the invalidation scenario. -/
def presetMoody : CommunityPreset := ⟨"Moody", "moody-url", none⟩

/-- Oracles of the invalidation scenario: the preset file parses with a
valid adjustments section and every render succeeds. -/
def envC1 : Env where
  initialAdjustments := [("exposure", 0)]
  fetchPresetContent := fun _ => some ⟨none, some [("contrast", 20)]⟩
  renderOk := fun _ _ => true
  saveOk := fun _ _ => true

/-- Initial state: catalog fetched, default image staged at path "imageA". -/
def c1s0 : PageState := ⟨[presetMoody], [], some "imageA", [], false, 0, [], []⟩

/-- The effect of lines 143-148 fires: fill the queue, start the drain. -/
def c1r1 : PageState × Option PageCont := runEffect c1s0

/-- The drain shifts "Moody" and suspends at the content fetch (line 100). -/
def c1r2 : PageState × Option PageCont :=
  stepSeg envC1 (PageCont.loopTop "imageA") c1r1.1

/-- While the fetch is in flight the user picks "imageB"; the dialog resolves:
lines 157-160 revoke the snapshot's URLs (none yet), clear the map and set the
new path. -/
def c1r3 : PageState × Option PageCont :=
  stepSeg envC1 (PageCont.selectResume c1r2.1.previews "imageB") c1r2.1

/-- The effect re-fires for the new path; the guard at line 89 sees
`isProcessingQueue` still true and returns without starting a new drain. -/
def c1r4 : PageState × Option PageCont := runEffect c1r3.1

/-- The suspended drain resumes with the fetch result; its closure still holds
"imageA", so it proceeds to render against the old image. -/
def c1r5 : PageState × Option PageCont :=
  stepSeg envC1
    (PageCont.afterFetch "imageA" presetMoody
      (envC1.fetchPresetContent presetMoody.download_url)) c1r4.1

/-- The render against "imageA" settles successfully; the blob URL rendered
against the superseded image is installed into the cleared map. -/
def c1r6 : PageState × Option PageCont :=
  stepSeg envC1 (PageCont.afterRender "imageA" presetMoody true) c1r5.1

/-- The loop continues on the refilled queue: "Moody" now has a truthy entry,
so line 97 skips it — the stale preview is never re-rendered. -/
def c1r7 : PageState × Option PageCont :=
  stepSeg envC1 (PageCont.loopTop "imageA") c1r6.1

/-- The queue is empty; the drain clears the flag and exits. -/
def c1r8 : PageState × Option PageCont :=
  stepSeg envC1 (PageCont.loopTop "imageA") c1r7.1

/-!
Scenario for the resource-safety claim: two presets; the user opens the
file dialog while the second preset's render is in flight, and confirms the
new image after that render has installed its blob URL. The handler's closure
snapshot of `previews` (line 158) predates the install, so the second URL is
cleared from the map without ever being revoked.
-/

/-- First catalog entry of the resource-safety scenario. -/
def presetAlpha : CommunityPreset := ⟨"Alpha", "alpha-url", none⟩

/-- Second catalog entry of the resource-safety scenario. -/
def presetBright : CommunityPreset := ⟨"Bright", "bright-url", none⟩

/-- Oracles of the resource-safety scenario: valid files, all renders succeed. -/
def envC4 : Env where
  initialAdjustments := []
  fetchPresetContent := fun _ => some ⟨none, some [("exposure", 10)]⟩
  renderOk := fun _ _ => true
  saveOk := fun _ _ => true

/-- Initial state: two presets, default image staged at "imgA". -/
def c4s0 : PageState :=
  ⟨[presetAlpha, presetBright], [], some "imgA", [], false, 0, [], []⟩

/-- The effect fires: queue filled, drain started. -/
def c4r1 : PageState × Option PageCont := runEffect c4s0

/-- Shift "Alpha", suspend at its fetch. -/
def c4r2 : PageState × Option PageCont :=
  stepSeg envC4 (PageCont.loopTop "imgA") c4r1.1

/-- Alpha's fetch resolves; suspend at its render. -/
def c4r3 : PageState × Option PageCont :=
  stepSeg envC4
    (PageCont.afterFetch "imgA" presetAlpha
      (envC4.fetchPresetContent presetAlpha.download_url)) c4r2.1

/-- Alpha's render settles: blob URL 0 installed for "Alpha". -/
def c4r4 : PageState × Option PageCont :=
  stepSeg envC4 (PageCont.afterRender "imgA" presetAlpha true) c4r3.1

/-- Shift "Bright", suspend at its fetch. -/
def c4r5 : PageState × Option PageCont :=
  stepSeg envC4 (PageCont.loopTop "imgA") c4r4.1

/-- Bright's fetch resolves; suspend at its render. The user now clicks
"Change Preview Image": the handler captures the current `previews` (only
Alpha's URL) and suspends at the file-dialog await (line 152). -/
def c4r6 : PageState × Option PageCont :=
  stepSeg envC4
    (PageCont.afterFetch "imgA" presetBright
      (envC4.fetchPresetContent presetBright.download_url)) c4r5.1

/-- The snapshot the select handler's closure holds from click time. -/
def c4snapshot : PrevMap := c4r6.1.previews

/-- While the dialog is open, Bright's render settles: blob URL 1 installed
for "Bright". -/
def c4r7 : PageState × Option PageCont :=
  stepSeg envC4 (PageCont.afterRender "imgA" presetBright true) c4r6.1

/-- The queue is empty; the drain exits. -/
def c4r8 : PageState × Option PageCont :=
  stepSeg envC4 (PageCont.loopTop "imgA") c4r7.1

/-- The dialog resolves with "imgB": lines 157-160 revoke only the URLs in
the stale snapshot (Alpha's URL 0), clear the map — dropping Bright's URL 1
without revoking it — and set the new path. -/
def c4r9 : PageState × Option PageCont :=
  stepSeg envC4 (PageCont.selectResume c4snapshot "imgB") c4r8.1

/-- The effect re-fires for "imgB"; the drain is idle, so a new run starts. -/
def c4r10 : PageState × Option PageCont := runEffect c4r9.1

/-- New run, Alpha: shift and suspend at fetch. -/
def c4r11 : PageState × Option PageCont :=
  stepSeg envC4 (PageCont.loopTop "imgB") c4r10.1

/-- New run, Alpha: fetch resolves. -/
def c4r12 : PageState × Option PageCont :=
  stepSeg envC4
    (PageCont.afterFetch "imgB" presetAlpha
      (envC4.fetchPresetContent presetAlpha.download_url)) c4r11.1

/-- New run, Alpha: render settles, blob URL 2 installed. -/
def c4r13 : PageState × Option PageCont :=
  stepSeg envC4 (PageCont.afterRender "imgB" presetAlpha true) c4r12.1

/-- New run, Bright: shift and suspend at fetch. -/
def c4r14 : PageState × Option PageCont :=
  stepSeg envC4 (PageCont.loopTop "imgB") c4r13.1

/-- New run, Bright: fetch resolves. -/
def c4r15 : PageState × Option PageCont :=
  stepSeg envC4
    (PageCont.afterFetch "imgB" presetBright
      (envC4.fetchPresetContent presetBright.download_url)) c4r14.1

/-- New run, Bright: render settles, blob URL 3 installed. -/
def c4r16 : PageState × Option PageCont :=
  stepSeg envC4 (PageCont.afterRender "imgB" presetBright true) c4r15.1

/-- New run: queue empty, drain exits. -/
def c4r17 : PageState × Option PageCont :=
  stepSeg envC4 (PageCont.loopTop "imgB") c4r16.1

/-- Finally the screen is closed: the unmount cleanup of lines 71-77 revokes
whatever is in the map at teardown. -/
def c4final : PageState := unmountCleanup c4r17.1

/-!
Association-list lemmas.
-/

/-- Count of an event in a trace. -/
def countEv (e : RenderEvent) : List RenderEvent → Nat
  | [] => 0
  | x :: rest => (if x = e then 1 else 0) + countEv e rest

/-- The initial drain state of a fresh run: the given catalog, an empty
preview map, no blob URLs yet. -/
def drainInit (ps : List CommunityPreset) : DrainState := ⟨ps, [], 0, [], []⟩

/-- The name/download-url part of a catalog entry. -/
def nameUrl (p : CommunityPreset) : String × String := (p.name, p.download_url)

theorem lookupA_insertA_self {α : Type} (m : List (String × α)) (k : String)
    (v : α) : lookupA (insertA m k v) k = some v := by
  induction m with
  | nil => simp [insertA, lookupA]
  | cons hd t ih =>
    obtain ⟨k', v'⟩ := hd
    by_cases hk : k' = k
    · subst hk
      simp [insertA, lookupA]
    · simp [insertA, lookupA, hk, ih]

theorem insertA_absent {α : Type} {m : List (String × α)} {k : String}
    (h : lookupA m k = none) (v : α) : insertA m k v = m ++ [(k, v)] := by
  induction m with
  | nil => simp [insertA]
  | cons hd t ih =>
    obtain ⟨k', v'⟩ := hd
    by_cases hk : k' = k
    · subst hk
      simp [lookupA] at h
    · simp only [lookupA, if_neg hk] at h
      simp [insertA, hk, ih h]

theorem insertA_lookup_same {α : Type} {m : List (String × α)} {k : String}
    {v : α} (h : lookupA m k = some v) : insertA m k v = m := by
  induction m with
  | nil => simp [lookupA] at h
  | cons hd t ih =>
    obtain ⟨k', v'⟩ := hd
    by_cases hk : k' = k
    · subst hk
      have h' : v' = v := by simpa [lookupA] using h
      simp [insertA, h']
    · simp only [lookupA, if_neg hk] at h
      simp [insertA, hk, ih h]

theorem lookupA_append_of_none {α : Type} {m : List (String × α)} {k : String}
    (h : lookupA m k = none) (m2 : List (String × α)) :
    lookupA (m ++ m2) k = lookupA m2 k := by
  induction m with
  | nil => rfl
  | cons hd t ih =>
    obtain ⟨k', v'⟩ := hd
    by_cases hk : k' = k
    · simp [lookupA, hk] at h
    · simp only [lookupA, if_neg hk] at h
      simp only [List.cons_append, lookupA, if_neg hk]
      exact ih h

theorem lookupA_eq_none_of_not_mem_keys {α : Type} {m : List (String × α)}
    {k : String} (h : k ∉ keysOf m) : lookupA m k = none := by
  induction m with
  | nil => rfl
  | cons hd t ih =>
    obtain ⟨k', v'⟩ := hd
    simp only [keysOf, List.map_cons, List.mem_cons] at h
    push_neg at h
    have hk : k' ≠ k := fun hkk => h.1 hkk.symm
    simp only [lookupA, if_neg hk]
    exact ih (by simpa [keysOf] using h.2)

theorem truthyEntry_false_of_none {m : PrevMap} {k : String}
    (h : lookupA m k = none) : truthyEntry m k = false := by
  simp [truthyEntry, h]

theorem lookupA_singleton {α : Type} (k1 k : String) (v : α) :
    lookupA [(k1, v)] k = if k1 = k then some v else none := by
  by_cases hk : k1 = k <;> simp [lookupA, hk]

@[simp] theorem applyCreatorUpdate_previews (file : PresetFile) (nm : String)
    (s : DrainState) : (applyCreatorUpdate file nm s).previews = s.previews := by
  unfold applyCreatorUpdate
  split <;> rfl

@[simp] theorem applyCreatorUpdate_nextId (file : PresetFile) (nm : String)
    (s : DrainState) : (applyCreatorUpdate file nm s).nextId = s.nextId := by
  unfold applyCreatorUpdate
  split <;> rfl

theorem updateCreator_nameUrl (ps : List CommunityPreset) (nm c : String) :
    (updateCreator ps nm c).map nameUrl = ps.map nameUrl := by
  unfold updateCreator
  rw [List.map_map]
  apply List.map_congr_left
  intro p _
  by_cases hp : p.name = nm <;> simp [hp, nameUrl]

/-!
Characterization of one drain iteration and of a whole drain over a fresh
queue.
-/

theorem drainStep_char (env : Env) (imgPath : String) (p : CommunityPreset)
    (s : DrainState) (h : lookupA s.previews p.name = none) :
    (drainStep env imgPath p s).1.previews =
      (match previewOutcome env imgPath p with
        | PreviewOutcome.skipped => s.previews
        | PreviewOutcome.failed => s.previews ++ [(p.name, none)]
        | PreviewOutcome.ready =>
          s.previews ++ [(p.name, some ⟨s.nextId, imgPath⟩)]) ∧
    (drainStep env imgPath p s).1.nextId =
      (if previewOutcome env imgPath p = PreviewOutcome.ready then
        s.nextId + 1 else s.nextId) ∧
    (drainStep env imgPath p s).2 =
      (if renderIssued env p then
        [RenderEvent.issue p.name, RenderEvent.settle p.name] else []) := by
  have ht := truthyEntry_false_of_none h
  unfold drainStep previewOutcome renderIssued
  rw [ht]
  cases hf : env.fetchPresetContent p.download_url with
  | none =>
    simp [insertA_absent h]
  | some file =>
    cases ha : file.adjustments with
    | none =>
      simp [applyCreatorUpdate_previews, applyCreatorUpdate_nextId, ha]
    | some adj =>
      by_cases hr : env.renderOk imgPath (mergeAdjustments env.initialAdjustments adj)
      · have hprev : (applyCreatorUpdate file p.name s).previews = s.previews :=
          applyCreatorUpdate_previews file p.name s
        have hnext : (applyCreatorUpdate file p.name s).nextId = s.nextId :=
          applyCreatorUpdate_nextId file p.name s
        simp only [hr, if_true, ha, Option.isSome_some]
        unfold installPreview
        rw [hprev, h]
        simp only [hnext, hprev]
        refine ⟨insertA_absent h _, rfl, rfl⟩
      · simp only [hr, ha, if_false, Bool.false_eq_true,
          applyCreatorUpdate_previews, applyCreatorUpdate_nextId,
          Option.isSome_some, if_true]
        refine ⟨insertA_absent h _, ?_, ?_⟩ <;> simp

theorem processPreviewQueue_char (env : Env) (imgPath : String)
    (Q : List CommunityPreset) :
    ∀ s : DrainState,
    (∀ p ∈ Q, lookupA s.previews p.name = none) →
    List.Pairwise (fun a b => a.name ≠ b.name) Q →
    (processPreviewQueue env imgPath Q s).1.previews
        = s.previews ++ buildTail env imgPath Q s.nextId ∧
    (processPreviewQueue env imgPath Q s).1.nextId
        = s.nextId + readyCount env imgPath Q ∧
    (processPreviewQueue env imgPath Q s).2 = buildTrace env Q := by
  induction Q with
  | nil =>
    intro s _ _
    simp [processPreviewQueue, buildTail, buildTrace, readyCount]
  | cons p rest ih =>
    intro s habs hpw
    have hp : lookupA s.previews p.name = none := habs p (by simp)
    obtain ⟨h1, h2, h3⟩ := drainStep_char env imgPath p s hp
    have hhead : ∀ b ∈ rest, p.name ≠ b.name := (List.pairwise_cons.mp hpw).1
    have habs' : ∀ q ∈ rest,
        lookupA (drainStep env imgPath p s).1.previews q.name = none := by
      intro q hq
      have hqnone : lookupA s.previews q.name = none :=
        habs q (List.mem_cons_of_mem _ hq)
      have hqname : p.name ≠ q.name := hhead q hq
      rw [h1]
      cases houtcome : previewOutcome env imgPath p
      · exact hqnone
      · rw [lookupA_append_of_none hqnone, lookupA_singleton, if_neg hqname]
      · rw [lookupA_append_of_none hqnone, lookupA_singleton, if_neg hqname]
    obtain ⟨ih1, ih2, ih3⟩ :=
      ih (drainStep env imgPath p s).1 habs' (List.pairwise_cons.mp hpw).2
    refine ⟨?_, ?_, ?_⟩
    · show (processPreviewQueue env imgPath rest (drainStep env imgPath p s).1).1.previews = _
      rw [ih1, h1, h2]
      cases houtcome : previewOutcome env imgPath p <;>
        simp [buildTail, houtcome, List.append_assoc]
    · show (processPreviewQueue env imgPath rest (drainStep env imgPath p s).1).1.nextId = _
      rw [ih2, h2]
      unfold readyCount
      cases houtcome : previewOutcome env imgPath p <;>
        simp [List.filter_cons, houtcome, readyCount]
      all_goals omega
    · show (drainStep env imgPath p s).2 ++ _ = _
      rw [ih3, h3]
      rfl

theorem keysOf_buildTail (env : Env) (img : String)
    (Q : List CommunityPreset) : ∀ id : Nat,
    keysOf (buildTail env img Q id)
      = (Q.filter (fun p =>
          decide (previewOutcome env img p ≠ PreviewOutcome.skipped))).map
          (fun p => p.name) := by
  induction Q with
  | nil => intro id; rfl
  | cons p rest ih =>
    intro id
    cases houtcome : previewOutcome env img p
    · have hpred : (fun p => decide (previewOutcome env img p ≠ PreviewOutcome.skipped)) p = false := by
        simp [houtcome]
      rw [List.filter_cons_of_neg (by simpa using hpred)]
      simpa [buildTail, houtcome] using ih id
    · have hpred : decide (previewOutcome env img p ≠ PreviewOutcome.skipped) = true := by
        simp [houtcome]
      rw [List.filter_cons_of_pos (by simpa using hpred)]
      simp only [buildTail, houtcome, keysOf, List.map_cons]
      exact congrArg (fun l => p.name :: l) (ih id)
    · have hpred : decide (previewOutcome env img p ≠ PreviewOutcome.skipped) = true := by
        simp [houtcome]
      rw [List.filter_cons_of_pos (by simpa using hpred)]
      simp only [buildTail, houtcome, keysOf, List.map_cons]
      exact congrArg (fun l => p.name :: l) (ih (id + 1))

theorem buildTail_entry (env : Env) (img : String)
    (Q : List CommunityPreset) :
    ∀ id : Nat, List.Pairwise (fun a b => a.name ≠ b.name) Q →
    ∀ p ∈ Q,
    (previewOutcome env img p = PreviewOutcome.skipped →
      lookupA (buildTail env img Q id) p.name = none) ∧
    (previewOutcome env img p = PreviewOutcome.failed →
      lookupA (buildTail env img Q id) p.name = some none) ∧
    (previewOutcome env img p = PreviewOutcome.ready →
      ∃ u : BlobUrl, lookupA (buildTail env img Q id) p.name = some (some u)) := by
  induction Q with
  | nil =>
    intro id _ p hp
    cases hp
  | cons q rest ih =>
    intro id hpw p hp
    have hhead : ∀ b ∈ rest, q.name ≠ b.name := (List.pairwise_cons.mp hpw).1
    have htail := (List.pairwise_cons.mp hpw).2
    rcases List.mem_cons.mp hp with hpq | hp'
    · subst hpq
      have hnone : ∀ id' : Nat, lookupA (buildTail env img rest id') p.name = none := by
        intro id'
        apply lookupA_eq_none_of_not_mem_keys
        rw [keysOf_buildTail]
        intro hmem
        obtain ⟨r, hr, hrname⟩ := List.mem_map.mp hmem
        exact hhead r (List.mem_of_mem_filter hr) hrname.symm
      refine ⟨?_, ?_, ?_⟩
      · intro houtcome
        simp only [buildTail, houtcome]
        exact hnone id
      · intro houtcome
        simp [buildTail, houtcome, lookupA]
      · intro houtcome
        exact ⟨⟨id, img⟩, by simp [buildTail, houtcome, lookupA]⟩
    · have hqp : q.name ≠ p.name := hhead p hp'
      refine ⟨?_, ?_, ?_⟩
      · intro houtcome
        cases hq : previewOutcome env img q <;>
          simp only [buildTail, hq, lookupA, if_neg hqp] <;>
          exact (ih _ htail p hp').1 houtcome
      · intro houtcome
        cases hq : previewOutcome env img q <;>
          simp only [buildTail, hq, lookupA, if_neg hqp] <;>
          exact (ih _ htail p hp').2.1 houtcome
      · intro houtcome
        cases hq : previewOutcome env img q <;>
          simp only [buildTail, hq, lookupA, if_neg hqp] <;>
          exact (ih _ htail p hp').2.2 houtcome

/-- The final preview-map shape a preset's entry must have after a completed
fresh run, by outcome: absent when skipped, `null` when failed, some blob URL
when ready. -/
def matchesOutcome (env : Env) (img : String) (m : PrevMap)
    (p : CommunityPreset) : Prop :=
  match previewOutcome env img p with
  | PreviewOutcome.skipped => lookupA m p.name = none
  | PreviewOutcome.failed => lookupA m p.name = some none
  | PreviewOutcome.ready => ∃ u : BlobUrl, lookupA m p.name = some (some u)

theorem drainStep_stable (env : Env) (img : String) (p : CommunityPreset)
    (s : DrainState) (hp : matchesOutcome env img s.previews p) :
    (drainStep env img p s).1.previews = s.previews := by
  unfold matchesOutcome previewOutcome at hp
  unfold drainStep
  cases hf : env.fetchPresetContent p.download_url with
  | none =>
    rw [hf] at hp
    have ht : truthyEntry s.previews p.name = false := by
      simp [truthyEntry, hp]
    simp only [ht, Bool.false_eq_true, if_false, hf]
    exact insertA_lookup_same hp
  | some file =>
    simp only [hf] at hp
    cases ha : file.adjustments with
    | none =>
      simp only [ha] at hp
      have ht : truthyEntry s.previews p.name = false :=
        truthyEntry_false_of_none hp
      simp [ht, ha]
    | some adj =>
      simp only [ha] at hp
      by_cases hr : env.renderOk img (mergeAdjustments env.initialAdjustments adj)
      · rw [if_pos hr] at hp
        obtain ⟨u, hu⟩ := hp
        have ht : truthyEntry s.previews p.name = true := by
          simp [truthyEntry, hu]
        simp [ht]
      · rw [if_neg hr] at hp
        have ht : truthyEntry s.previews p.name = false := by
          simp [truthyEntry, hp]
        simp only [ht, Bool.false_eq_true, if_false, ha, hr]
        simp only [applyCreatorUpdate_previews]
        exact insertA_lookup_same ((applyCreatorUpdate_previews file p.name s) ▸ hp)

theorem processPreviewQueue_stable (env : Env) (img : String)
    (Q : List CommunityPreset) :
    ∀ s : DrainState, (∀ p ∈ Q, matchesOutcome env img s.previews p) →
    (processPreviewQueue env img Q s).1.previews = s.previews := by
  induction Q with
  | nil => intro s _; rfl
  | cons p rest ih =>
    intro s hm
    have hstep : (drainStep env img p s).1.previews = s.previews :=
      drainStep_stable env img p s (hm p (by simp))
    have hm' : ∀ q ∈ rest, matchesOutcome env img (drainStep env img p s).1.previews q := by
      intro q hq
      rw [hstep]
      exact hm q (List.mem_cons_of_mem _ hq)
    show (processPreviewQueue env img rest (drainStep env img p s).1).1.previews = _
    rw [ih (drainStep env img p s).1 hm', hstep]

theorem drainStep_events (env : Env) (img : String) (p : CommunityPreset)
    (s : DrainState) :
    (drainStep env img p s).2 = [] ∨
    (drainStep env img p s).2 =
      [RenderEvent.issue p.name, RenderEvent.settle p.name] := by
  unfold drainStep
  cases ht : truthyEntry s.previews p.name
  · cases hf : env.fetchPresetContent p.download_url with
    | none => left; simp
    | some file =>
      cases ha : file.adjustments with
      | none => left; simp [ha]
      | some adj =>
        by_cases hr : env.renderOk img (mergeAdjustments env.initialAdjustments adj)
        · right
          simp [ha, hr, installPreview]
        · right
          simp [ha, hr]
  · left
    simp [ht]

theorem isSerialTrace_pair_append (n : String) (tr : List RenderEvent) :
    isSerialTrace (RenderEvent.issue n :: RenderEvent.settle n :: tr)
      = isSerialTrace tr := by
  simp [isSerialTrace]

theorem countEv_append (e : RenderEvent) (l1 l2 : List RenderEvent) :
    countEv e (l1 ++ l2) = countEv e l1 + countEv e l2 := by
  induction l1 with
  | nil => simp [countEv]
  | cons x rest ih =>
    simp [countEv, ih]
    omega

theorem countEv_buildTrace_zero (env : Env) (Q : List CommunityPreset)
    (nm : String) (h : ∀ q ∈ Q, q.name ≠ nm) :
    countEv (RenderEvent.issue nm) (buildTrace env Q) = 0 := by
  induction Q with
  | nil => rfl
  | cons q rest ih =>
    have hq : q.name ≠ nm := h q (by simp)
    have hrest := ih (fun r hr => h r (List.mem_cons_of_mem _ hr))
    unfold buildTrace
    rw [countEv_append, hrest]
    by_cases hiss : renderIssued env q
    · simp [hiss, countEv, hq]
    · simp [hiss, countEv]

theorem countEv_buildTrace_one (env : Env) (Q : List CommunityPreset)
    (pb : CommunityPreset)
    (hpw : List.Pairwise (fun a b => a.name ≠ b.name) Q)
    (hb : pb ∈ Q) (hiss : renderIssued env pb = true) :
    countEv (RenderEvent.issue pb.name) (buildTrace env Q) = 1 := by
  induction Q with
  | nil => cases hb
  | cons q rest ih =>
    have hhead : ∀ b ∈ rest, q.name ≠ b.name := (List.pairwise_cons.mp hpw).1
    have htail := (List.pairwise_cons.mp hpw).2
    unfold buildTrace
    rw [countEv_append]
    rcases List.mem_cons.mp hb with hbq | hb'
    · subst hbq
      rw [countEv_buildTrace_zero env rest pb.name
        (fun r hr => fun he => hhead r hr he.symm)]
      simp [hiss, countEv]
    · have hq : q.name ≠ pb.name := hhead pb hb'
      rw [ih htail hb']
      by_cases hqiss : renderIssued env q
      · simp [hqiss, countEv, hq]
      · simp [hqiss, countEv]

theorem render_trace_serialized_aux (env : Env) (img : String)
    (Q : List CommunityPreset) :
    ∀ s : DrainState, isSerialTrace (processPreviewQueue env img Q s).2 = true := by
  induction Q with
  | nil => intro s; rfl
  | cons p rest ih =>
    intro s
    show isSerialTrace ((drainStep env img p s).2
      ++ (processPreviewQueue env img rest (drainStep env img p s).1).2) = true
    rcases drainStep_events env img p s with h | h <;> rw [h]
    · simpa using ih (drainStep env img p s).1
    · rw [List.cons_append, List.cons_append, List.nil_append,
        isSerialTrace_pair_append]
      exact ih (drainStep env img p s).1

/-!
Claim theorems.
-/

/-- C1: the claim states that once the reference image changes while a run
for the old image is in flight, no preview entry rendered against the old
image is ever installed, and a late result is discarded and its resource
released. The code has no generation token: evaluated at the failing
interleaving (catalog `[Moody]`, image switched from "imageA" to "imageB"
while Moody's content fetch is awaited), the in-flight drain — whose closure
captured "imageA" — resumes after the switch, renders against "imageA",
installs that blob URL into the cleared map, then skips the refilled queue
entry because the map is now truthy for "Moody". The machine halts with the
current image "imageB" but a preview rendered against "imageA" installed and
never revoked, contradicting the claim. The conjuncts also pin down every
continuation of the schedule, showing it is exactly the machine's own
transition chain. -/
theorem stale_image_result_installed_after_switch :
    c1r1.2 = some (PageCont.loopTop "imageA") ∧
    c1r2.2 = some (PageCont.afterFetch "imageA" presetMoody
      (envC1.fetchPresetContent presetMoody.download_url)) ∧
    c1r3.2 = none ∧
    c1r4.2 = none ∧
    c1r5.2 = some (PageCont.afterRender "imageA" presetMoody true) ∧
    c1r6.2 = some (PageCont.loopTop "imageA") ∧
    c1r7.2 = some (PageCont.loopTop "imageA") ∧
    c1r8.2 = none ∧
    c1r8.1.previewImagePath = some "imageB" ∧
    lookupA c1r8.1.previews "Moody" = some (some ⟨0, "imageA"⟩) ∧
    BlobUrl.mk 0 "imageA" ∉ c1r8.1.revoked ∧
    c1r8.1.isProcessingQueue = false := by
  decide

/-- C4: the claim states that every image resource ever installed into the
preview map is released exactly once — on replacement, on reference-image
switch, or at teardown — never leaked. Evaluated at the failing interleaving
(catalog `[Alpha, Bright]`; the user clicks "Change Preview Image" while
Bright's render is in flight and the dialog resolves after that render
installed blob URL 1): `handleSelectPreviewImage` revokes only the URLs in
the `previews` its closure captured at click time (Alpha's URL 0), then
clears the map, dropping Bright's installed URL 1 without revoking it. URL 1
is never revoked afterwards — not by the new run (the map was cleared) and
not by the unmount cleanup (it only sees the current map) — so a resource
that was installed is leaked, contradicting the claim. The conjuncts pin
down the continuation chain of the schedule and record that URL 1 was
installed (after `c4r7`) and is created but never revoked in the final
state. -/
theorem blob_url_leaked_on_image_switch_race :
    c4r1.2 = some (PageCont.loopTop "imgA") ∧
    c4r6.2 = some (PageCont.afterRender "imgA" presetBright true) ∧
    c4snapshot = [("Alpha", some ⟨0, "imgA"⟩)] ∧
    lookupA c4r7.1.previews "Bright" = some (some ⟨1, "imgA"⟩) ∧
    c4r8.2 = none ∧
    c4r9.2 = none ∧
    c4r10.2 = some (PageCont.loopTop "imgB") ∧
    c4r17.2 = none ∧
    BlobUrl.mk 1 "imgA" ∈ c4final.created ∧
    BlobUrl.mk 1 "imgA" ∉ c4final.revoked ∧
    BlobUrl.mk 1 "imgA" ∉ c4final.previews.filterMap (fun e => e.2) := by
  decide

/-- A preset whose fetched file parses but has no adjustments section. -/
def presetGhost : CommunityPreset := ⟨"Ghost", "ghost-url", none⟩

/-- Oracles under which every fetched preset file lacks an adjustments
section (`presetFile?.presets?.[0]?.preset?.adjustments` is undefined). -/
def envNoAdj : Env where
  initialAdjustments := []
  fetchPresetContent := fun _ => some ⟨some "Tim", none⟩
  renderOk := fun _ _ => true
  saveOk := fun _ _ => true

/-- C2 counterexample: the claim states that after a run over a non-empty
catalog completes, the preview map's key set equals the catalog's name set
exactly. Run over the one-preset catalog `[Ghost]` whose preset file has no
adjustments section: the `continue` at line 116 installs nothing, so "Ghost"
is in the catalog's name set but the finished map has no key at all. -/
theorem invalid_preset_breaks_key_set_equality :
    "Ghost" ∈ [presetGhost].map (fun p => p.name) ∧
    (processPreviewQueue envNoAdj "img" [presetGhost]
      (drainInit [presetGhost])).1.previews = [] ∧
    "Ghost" ∉ keysOf (processPreviewQueue envNoAdj "img" [presetGhost]
      (drainInit [presetGhost])).1.previews := by
  decide

/-- C2 (amended): after a fresh run over a catalog with pairwise-distinct
names completes, the key list of the preview map equals, in order, the names
of exactly those presets that are not silently skipped — a preset is
silently skipped when its file fetches and parses but lacks an adjustments
section (lines 113-117). Every non-skipped preset has exactly one entry and
no entry exists for a name outside the catalog. -/
theorem preview_map_keys_after_run (env : Env) (img : String)
    (Q : List CommunityPreset) (ps : List CommunityPreset)
    (hpw : List.Pairwise (fun a b => a.name ≠ b.name) Q) :
    keysOf (processPreviewQueue env img Q (drainInit ps)).1.previews
      = (Q.filter (fun p =>
          decide (previewOutcome env img p ≠ PreviewOutcome.skipped))).map
          (fun p => p.name) := by
  obtain ⟨h1, _, _⟩ :=
    processPreviewQueue_char env img Q (drainInit ps) (fun p _ => rfl) hpw
  rw [h1]
  simpa [drainInit] using keysOf_buildTail env img Q 0

/-- A preset whose file fetches with a valid adjustments section and whose
render succeeds. -/
def presetOkA : CommunityPreset := ⟨"Aster", "ok-a-url", none⟩

/-- A preset whose file is valid but whose render fails (its adjustments
carry a marker the renderer oracle rejects). -/
def presetFailB : CommunityPreset := ⟨"Briar", "failmark-url", none⟩

/-- Another preset with a valid file and a successful render. -/
def presetOkC : CommunityPreset := ⟨"Clove", "ok-c-url", none⟩

/-- A preset whose fetched file parses but lacks an adjustments section. -/
def presetSkipD : CommunityPreset := ⟨"Dew", "noadj-url", none⟩

/-- Oracles with mixed outcomes, keyed by download URL: "bad-url" throws at
fetch/parse, "noadj-url" parses without an adjustments section,
"failmark-url" parses but its render fails, anything else renders fine. -/
def envMix : Env where
  initialAdjustments := [("exposure", 0)]
  fetchPresetContent := fun url =>
    if url = "bad-url" then none
    else if url = "noadj-url" then some ⟨none, none⟩
    else if url = "failmark-url" then some ⟨none, some [("failmark", 1)]⟩
    else some ⟨none, some [("contrast", 20)]⟩
  renderOk := fun _ adj => !(adj.any (fun kv => kv.1 == "failmark"))
  saveOk := fun _ _ => true

/-- Witness for the amended C2 theorem at a concrete catalog with one ready,
one failed and one silently-skipped preset. -/
theorem preview_map_keys_after_run_witness :
    List.Pairwise (fun a b => a.name ≠ b.name)
      [presetOkA, presetFailB, presetSkipD] ∧
    keysOf (processPreviewQueue envMix "img" [presetOkA, presetFailB, presetSkipD]
        (drainInit [presetOkA, presetFailB, presetSkipD])).1.previews
      = ([presetOkA, presetFailB, presetSkipD].filter (fun p =>
          decide (previewOutcome envMix "img" p ≠ PreviewOutcome.skipped))).map
          (fun p => p.name) :=
  ⟨by decide,
    preview_map_keys_after_run envMix "img" [presetOkA, presetFailB, presetSkipD]
      [presetOkA, presetFailB, presetSkipD] (by decide)⟩

/-- C3 counterexample: the claim states that all render requests of a run
are issued concurrently, without awaiting each other (fan-out), and results
applied only after all have settled. Evaluated on a two-preset catalog whose
renders both succeed, the drain's trace is issue/settle of "Alpha" followed
by issue/settle of "Bright": the second request is only issued after the
first has settled, so the trace is not a fan-out. -/
theorem render_trace_not_fan_out :
    (processPreviewQueue envC4 "imgA" [presetAlpha, presetBright]
        (drainInit [presetAlpha, presetBright])).2
      = [RenderEvent.issue "Alpha", RenderEvent.settle "Alpha",
         RenderEvent.issue "Bright", RenderEvent.settle "Bright"] ∧
    isFanOutTrace (processPreviewQueue envC4 "imgA" [presetAlpha, presetBright]
        (drainInit [presetAlpha, presetBright])).2 = false := by
  decide

/-- C3 (amended): the pipeline serializes its render calls: for every
catalog, state and oracles, the run's render trace consists of adjacent
issue/settle pairs — each render call is fully awaited (and its result
applied) before the next one is issued; there is no fan-out and no joint
fan-in barrier. -/
theorem render_trace_serialized (env : Env) (img : String)
    (Q : List CommunityPreset) (s : DrainState) :
    isSerialTrace (processPreviewQueue env img Q s).2 = true :=
  render_trace_serialized_aux env img Q s

theorem renderIssued_not_skipped (env : Env) (img : String)
    (p : CommunityPreset) (h : renderIssued env p = true) :
    previewOutcome env img p ≠ PreviewOutcome.skipped := by
  unfold renderIssued at h
  unfold previewOutcome
  cases hf : env.fetchPresetContent p.download_url with
  | none => rw [hf] at h; cases h
  | some file =>
    simp only [hf] at h ⊢
    cases ha : file.adjustments with
    | none =>
      simp only [ha, Option.isSome_none] at h
      cases h
    | some adj =>
      simp only [ha]
      by_cases hr : env.renderOk img (mergeAdjustments env.initialAdjustments adj) <;>
        simp [hr]

/-- C5: for a run in which every preset's render call is actually issued
(its file fetches and parses with a valid adjustments section) over a
catalog with pairwise-distinct names, if preset `pb`'s render fails while
preset `pa`'s succeeds, then after the run `pa` is ready and `pb` is failed
in the preview map, the completion signal of lines 80-86 is true (the run
does not fail and the failure does not block the other presets), and `pb`'s
render is issued exactly once — no automatic retry. -/
theorem partial_failure_isolated (env : Env) (img : String)
    (Q : List CommunityPreset) (pa pb : CommunityPreset)
    (hpw : List.Pairwise (fun a b => a.name ≠ b.name) Q)
    (hall : ∀ p ∈ Q, renderIssued env p = true)
    (ha : pa ∈ Q) (hb : pb ∈ Q)
    (hra : previewOutcome env img pa = PreviewOutcome.ready)
    (hrb : previewOutcome env img pb = PreviewOutcome.failed) :
    entryReady (processPreviewQueue env img Q (drainInit Q)).1.previews pa.name
      = true ∧
    entryFailed (processPreviewQueue env img Q (drainInit Q)).1.previews pb.name
      = true ∧
    allPreviewsLoaded Q (processPreviewQueue env img Q (drainInit Q)).1.previews
      = true ∧
    countEv (RenderEvent.issue pb.name)
      (processPreviewQueue env img Q (drainInit Q)).2 = 1 := by
  obtain ⟨h1, _, h3⟩ :=
    processPreviewQueue_char env img Q (drainInit Q) (fun p _ => rfl) hpw
  have hprev : (processPreviewQueue env img Q (drainInit Q)).1.previews
      = buildTail env img Q 0 := by
    rw [h1]
    rfl
  have hfilter : Q.filter (fun p =>
      decide (previewOutcome env img p ≠ PreviewOutcome.skipped)) = Q := by
    rw [List.filter_eq_self]
    intro p hp
    simpa using renderIssued_not_skipped env img p (hall p hp)
  refine ⟨?_, ?_, ?_, ?_⟩
  · obtain ⟨u, hu⟩ := (buildTail_entry env img Q 0 hpw pa ha).2.2 hra
    rw [hprev]
    simp [entryReady, hu]
  · have hu := (buildTail_entry env img Q 0 hpw pb hb).2.1 hrb
    rw [hprev]
    simp [entryFailed, hu]
  · have hlen : (keysOf (processPreviewQueue env img Q (drainInit Q)).1.previews).length
        = Q.length := by
      rw [hprev, keysOf_buildTail, hfilter, List.length_map]
    have hpos : 0 < Q.length := List.length_pos.mpr (by rintro rfl; cases ha)
    simp [allPreviewsLoaded, hlen, hpos]
  · rw [h3]
    exact countEv_buildTrace_one env Q pb hpw hb (hall pb hb)

/-- Witness for C5 at the concrete catalog Aster/Briar/Clove where Briar's
render fails and the other two succeed. -/
theorem partial_failure_isolated_witness :
    (List.Pairwise (fun a b => a.name ≠ b.name)
      [presetOkA, presetFailB, presetOkC] ∧
    (∀ p ∈ [presetOkA, presetFailB, presetOkC], renderIssued envMix p = true) ∧
    previewOutcome envMix "img" presetOkA = PreviewOutcome.ready ∧
    previewOutcome envMix "img" presetFailB = PreviewOutcome.failed) ∧
    entryReady (processPreviewQueue envMix "img" [presetOkA, presetFailB, presetOkC]
      (drainInit [presetOkA, presetFailB, presetOkC])).1.previews "Aster" = true ∧
    entryFailed (processPreviewQueue envMix "img" [presetOkA, presetFailB, presetOkC]
      (drainInit [presetOkA, presetFailB, presetOkC])).1.previews "Briar" = true ∧
    allPreviewsLoaded [presetOkA, presetFailB, presetOkC]
      (processPreviewQueue envMix "img" [presetOkA, presetFailB, presetOkC]
        (drainInit [presetOkA, presetFailB, presetOkC])).1.previews = true ∧
    countEv (RenderEvent.issue "Briar")
      (processPreviewQueue envMix "img" [presetOkA, presetFailB, presetOkC]
        (drainInit [presetOkA, presetFailB, presetOkC])).2 = 1 :=
  ⟨⟨by decide, by decide, by decide, by decide⟩,
    partial_failure_isolated envMix "img" [presetOkA, presetFailB, presetOkC]
      presetOkA presetFailB (by decide) (by decide) (by decide) (by decide)
      (by decide) (by decide)⟩

/-- C6: the completion signal computed by the effect of lines 80-86
(`presets.length > 0 && Object.keys(previews).length === presets.length`)
is true exactly when the catalog is non-empty and the number of preview-map
entries that exist — each of which is resolved, as ready or failed — equals
the catalog size, and false in every other state. -/
theorem completion_signal_iff_spec (presets : List CommunityPreset)
    (previews : PrevMap) :
    allPreviewsLoaded presets previews = true
      ↔ completionSignalSpec presets previews := by
  unfold allPreviewsLoaded completionSignalSpec resolvedEntryCount keysOf
  rw [Bool.and_eq_true, decide_eq_true_eq, decide_eq_true_eq, List.length_map,
    List.length_pos]

/-- C7: running the drain a second time over the same catalog and reference
image, starting from the state the first fresh run produced, leaves the
preview map unchanged — with deterministic oracles (the `Env` functions),
the partition of presets into ready and failed entries is identical: ready
entries are skipped by the truthiness check of line 97, failed (`null`)
entries are falsy and re-attempted but fail identically, skipped presets are
skipped identically. -/
theorem pipeline_idempotent_on_rerun (env : Env) (img : String)
    (Q : List CommunityPreset)
    (hpw : List.Pairwise (fun a b => a.name ≠ b.name) Q) :
    (processPreviewQueue env img Q
        (processPreviewQueue env img Q (drainInit Q)).1).1.previews
      = (processPreviewQueue env img Q (drainInit Q)).1.previews := by
  apply processPreviewQueue_stable
  intro p hp
  obtain ⟨h1, _, _⟩ :=
    processPreviewQueue_char env img Q (drainInit Q) (fun q _ => rfl) hpw
  have hprev : (processPreviewQueue env img Q (drainInit Q)).1.previews
      = buildTail env img Q 0 := by
    rw [h1]
    rfl
  rw [hprev]
  unfold matchesOutcome
  have hentry := buildTail_entry env img Q 0 hpw p hp
  cases houtcome : previewOutcome env img p
  · exact hentry.1 houtcome
  · exact hentry.2.1 houtcome
  · exact hentry.2.2 houtcome

/-- Witness for C7 at the concrete mixed catalog: a ready, a failed and a
skipped preset all resolve identically on the re-run. -/
theorem pipeline_idempotent_on_rerun_witness :
    List.Pairwise (fun a b => a.name ≠ b.name)
      [presetOkA, presetFailB, presetSkipD] ∧
    (processPreviewQueue envMix "img" [presetOkA, presetFailB, presetSkipD]
        (processPreviewQueue envMix "img" [presetOkA, presetFailB, presetSkipD]
          (drainInit [presetOkA, presetFailB, presetSkipD])).1).1.previews
      = (processPreviewQueue envMix "img" [presetOkA, presetFailB, presetSkipD]
          (drainInit [presetOkA, presetFailB, presetSkipD])).1.previews :=
  ⟨by decide,
    pipeline_idempotent_on_rerun envMix "img"
      [presetOkA, presetFailB, presetSkipD] (by decide)⟩

/-- A catalog entry with no creator, for the immutability counterexample. -/
def presetPlain : CommunityPreset := ⟨"Plain", "plain-url", none⟩

/-- Oracles whose preset files carry a creator, triggering the `setPresets`
write-back of lines 104-111. -/
def envCreator : Env where
  initialAdjustments := []
  fetchPresetContent := fun _ => some ⟨some "Riccio", some []⟩
  renderOk := fun _ _ => true
  saveOk := fun _ _ => true

/-- C8 counterexample: the claim states that no pipeline operation modifies
any field of a catalog entry after the fetch completes. Running the preview
drain over the one-preset catalog `[Plain]` (creator absent) with a preset
file carrying creator "Riccio" mutates the catalog entry's `creator` field
via `setPresets` at lines 104-111. -/
theorem creator_field_mutated_by_preview_run :
    (processPreviewQueue envCreator "img" [presetPlain]
        (drainInit [presetPlain])).1.presets
      = [⟨"Plain", "plain-url", some "Riccio"⟩] ∧
    ([⟨"Plain", "plain-url", some "Riccio"⟩] : List CommunityPreset)
      ≠ [presetPlain] := by
  decide

theorem applyCreatorUpdate_nameUrl (file : PresetFile) (nm : String)
    (s : DrainState) :
    ((applyCreatorUpdate file nm s).presets).map nameUrl
      = s.presets.map nameUrl := by
  unfold applyCreatorUpdate
  cases file.creator <;> simp [updateCreator_nameUrl]

theorem installPreview_presets (img nm : String) (s : DrainState) :
    (installPreview img nm s).1.presets = s.presets := by
  unfold installPreview
  cases hl : lookupA s.previews nm with
  | none => rfl
  | some v =>
    cases v with
    | none => rfl
    | some old => rfl

theorem drainStep_nameUrl (env : Env) (img : String) (p : CommunityPreset)
    (s : DrainState) :
    ((drainStep env img p s).1.presets).map nameUrl = s.presets.map nameUrl := by
  unfold drainStep
  cases ht : truthyEntry s.previews p.name
  · cases hf : env.fetchPresetContent p.download_url with
    | none => simp
    | some file =>
      cases ha : file.adjustments with
      | none =>
        simp only [ha, Bool.false_eq_true, if_false]
        exact applyCreatorUpdate_nameUrl file p.name s
      | some adj =>
        by_cases hr : env.renderOk img (mergeAdjustments env.initialAdjustments adj)
        · simp only [ha, hr, Bool.false_eq_true, if_false, if_true]
          rw [installPreview_presets]
          exact applyCreatorUpdate_nameUrl file p.name s
        · simp only [ha, hr, Bool.false_eq_true, if_false, if_true]
          exact applyCreatorUpdate_nameUrl file p.name s
  · simp [ht]

/-- C8 (amended): the preview drain never modifies a catalog entry's `name`
or `download_url`; the only field it may write is `creator`, copied from the
fetched preset file by `setPresets` at lines 104-111. The name/URL part of
the catalog is preserved by every run. -/
theorem preview_run_preserves_name_and_url (env : Env) (img : String)
    (Q : List CommunityPreset) :
    ∀ s : DrainState,
    ((processPreviewQueue env img Q s).1.presets).map nameUrl
      = s.presets.map nameUrl := by
  induction Q with
  | nil => intro s; rfl
  | cons p rest ih =>
    intro s
    show ((processPreviewQueue env img rest (drainStep env img p s).1).1.presets).map nameUrl = _
    rw [ih (drainStep env img p s).1, drainStep_nameUrl]

/-- C9: `handleDownloadPreset` (lines 167-187): for every preset, oracles
and prior status map, the catalog is left untouched (the handler contains no
`setPresets` call, so the preset's source adjustments remain available for a
retry), and the preset's final download status is `success` exactly when the
whole fetch-parse-save chain succeeds and reverts to `idle` when any step of
it fails. -/
theorem download_status_and_catalog_contract (env : Env)
    (preset : CommunityPreset) (status : List (String × DownloadStatus))
    (presets : List CommunityPreset) :
    (handleDownloadPreset env preset status presets).2 = presets ∧
    lookupA (handleDownloadPreset env preset status presets).1 preset.name
      = some (if downloadSucceeds env preset then DownloadStatus.success
          else DownloadStatus.idle) := by
  unfold handleDownloadPreset downloadSucceeds
  cases hf : env.fetchPresetContent preset.download_url with
  | none => simp [lookupA_insertA_self]
  | some file =>
    cases ha : file.adjustments with
    | none => simp [ha, lookupA_insertA_self]
    | some adj =>
      by_cases hs : env.saveOk preset.name adj <;>
        simp [ha, hs, lookupA_insertA_self]

/-- C10: a preset whose fetched file parses but lacks a valid adjustments
section is silently skipped by the `continue` of lines 113-117: after the
run (over a catalog with pairwise-distinct names, from an empty map) there
is no entry at all for it — neither ready nor failed — so its tile is never
shown (lines 262-267 require a truthy entry), and the "all previews loaded"
signal of lines 80-86 is false, and remains false even after re-running the
drain over the same catalog. -/
theorem invalid_adjustments_preset_skipped (env : Env) (img : String)
    (Q : List CommunityPreset) (p : CommunityPreset)
    (hpw : List.Pairwise (fun a b => a.name ≠ b.name) Q)
    (hp : p ∈ Q)
    (hskip : previewOutcome env img p = PreviewOutcome.skipped) :
    lookupA (processPreviewQueue env img Q (drainInit Q)).1.previews p.name
      = none ∧
    entryReady (processPreviewQueue env img Q (drainInit Q)).1.previews p.name
      = false ∧
    allPreviewsLoaded Q (processPreviewQueue env img Q (drainInit Q)).1.previews
      = false ∧
    allPreviewsLoaded Q (processPreviewQueue env img Q
        (processPreviewQueue env img Q (drainInit Q)).1).1.previews = false := by
  obtain ⟨h1, _, _⟩ :=
    processPreviewQueue_char env img Q (drainInit Q) (fun q _ => rfl) hpw
  have hprev : (processPreviewQueue env img Q (drainInit Q)).1.previews
      = buildTail env img Q 0 := by
    rw [h1]
    rfl
  have hnone := (buildTail_entry env img Q 0 hpw p hp).1 hskip
  have hne : (keysOf (processPreviewQueue env img Q
      (drainInit Q)).1.previews).length ≠ Q.length := by
    rw [hprev, keysOf_buildTail, List.length_map]
    intro heq
    have hfeq := (List.filter_sublist Q).eq_of_length heq
    have hpred := List.filter_eq_self.mp hfeq p hp
    simp [hskip] at hpred
  have hfalse : allPreviewsLoaded Q
      (processPreviewQueue env img Q (drainInit Q)).1.previews = false := by
    unfold allPreviewsLoaded
    rw [decide_eq_false hne]
    simp
  have hstable : (processPreviewQueue env img Q
      (processPreviewQueue env img Q (drainInit Q)).1).1.previews
      = (processPreviewQueue env img Q (drainInit Q)).1.previews := by
    apply processPreviewQueue_stable
    intro q hq
    rw [hprev]
    unfold matchesOutcome
    have hentry := buildTail_entry env img Q 0 hpw q hq
    cases houtq : previewOutcome env img q
    · exact hentry.1 houtq
    · exact hentry.2.1 houtq
    · exact hentry.2.2 houtq
  refine ⟨?_, ?_, hfalse, ?_⟩
  · rw [hprev]
    exact hnone
  · rw [hprev]
    simp [entryReady, hnone]
  · rw [hstable]
    exact hfalse

/-- Witness for C10 at a concrete two-preset catalog in which "Dew" has no
adjustments section. -/
theorem invalid_adjustments_preset_skipped_witness :
    (List.Pairwise (fun a b => a.name ≠ b.name) [presetOkA, presetSkipD] ∧
    presetSkipD ∈ [presetOkA, presetSkipD] ∧
    previewOutcome envMix "img" presetSkipD = PreviewOutcome.skipped) ∧
    lookupA (processPreviewQueue envMix "img" [presetOkA, presetSkipD]
      (drainInit [presetOkA, presetSkipD])).1.previews "Dew" = none ∧
    entryReady (processPreviewQueue envMix "img" [presetOkA, presetSkipD]
      (drainInit [presetOkA, presetSkipD])).1.previews "Dew" = false ∧
    allPreviewsLoaded [presetOkA, presetSkipD]
      (processPreviewQueue envMix "img" [presetOkA, presetSkipD]
        (drainInit [presetOkA, presetSkipD])).1.previews = false ∧
    allPreviewsLoaded [presetOkA, presetSkipD]
      (processPreviewQueue envMix "img" [presetOkA, presetSkipD]
        (processPreviewQueue envMix "img" [presetOkA, presetSkipD]
          (drainInit [presetOkA, presetSkipD])).1).1.previews = false :=
  ⟨⟨by decide, by decide, by decide⟩,
    invalid_adjustments_preset_skipped envMix "img" [presetOkA, presetSkipD]
      presetSkipD (by decide) (by decide) (by decide)⟩
